import Mathlib

/-!
Verification of the invite / friend-relationship core of the Kakani client
application.  Pure client-side logic (contact validators, the invite-creation
pipeline, status projections) is embedded directly from the TypeScript source;
the backend Invite Lifecycle Engine and Relationship State Store exist in this
repository only behind the thin HTTP client (`api` in `src/unnamed/part_000`),
so those operations are modelled from the specification where a claim needs
them.  Strings are embedded as `List Char`.
-/

namespace Kakani

/-! ### Contact validators
Embedded from `SendInvites` (`src/unnamed/part_003`, lines 121-142) and
`SearchFriendsView.tsx` (lines 168-185); the two copies are textually
identical. -/

/-- Characters matched by the regex class `\s` (whitespace). -/
def isSpaceChar (c : Char) : Bool :=
  c = ' ' || c = '\t' || c = '\n' || c = '\r'

/-- Characters removed by `phone.replace(/[\s\-\(\)\.]/g, '')`:
whitespace, dash, parentheses and dot. -/
def isSepChar (c : Char) : Bool :=
  isSpaceChar c || c = '-' || c = '(' || c = ')' || c = '.'

/-- `phone.replace(/[\s\-\(\)\.]/g, '')` — strip the separator characters. -/
def stripPhone (s : List Char) : List Char :=
  s.filter (fun c => !isSepChar c)

/-- The regex class `[1-9]`. -/
def isNonZeroDigit (c : Char) : Bool :=
  '1' ≤ c && c ≤ '9'

/-- Matching of `[1-9]\d{9,14}` against a whole string: a non-zero digit
followed by 9 to 14 further digits. -/
def phoneCore (l : List Char) : Bool :=
  match l with
  | [] => false
  | c :: rest =>
      isNonZeroDigit c && rest.all Char.isDigit &&
        decide (9 ≤ rest.length) && decide (rest.length ≤ 14)

/-- `startsWith('+')` on the character list. -/
def startsWithPlus (l : List Char) : Bool :=
  match l with
  | [] => false
  | c :: _ => c == '+'

/-- Matching of `/^\+?[1-9]\d{9,14}$/` against a whole string: an optional
leading `+` (a literal `+` is not in `[1-9]`, so the alternative is
deterministic), then `phoneCore` on the remainder. -/
def phoneRegexTest (l : List Char) : Bool :=
  if startsWithPlus l then phoneCore (l.drop 1) else phoneCore l

/-- `validatePhone` from the source: strip separators, then test
`/^\+?[1-9]\d{9,14}$/`. -/
def validatePhone (s : List Char) : Bool :=
  phoneRegexTest (stripPhone s)

/-- `formatPhoneNumber` from the source: strip separators and, when the
result has no leading `+`, prepend the default country calling code `+1`
("Assume US if no country code"). -/
def formatPhoneNumber (s : List Char) : List Char :=
  let cleaned := stripPhone s
  if startsWithPlus cleaned then cleaned else '+' :: '1' :: cleaned

/-- Characters matched by the regex class `[^\s@]`. -/
def isEmailChar (c : Char) : Bool :=
  !(isSpaceChar c || c = '@')

/-- Split a list at the first occurrence of `c`: `some (l, r)` with
`s = l ++ c :: r` and `c ∉ l`, or `none` when `c` does not occur. -/
def breakAtChar (c : Char) (s : List Char) : Option (List Char × List Char) :=
  match s with
  | [] => none
  | x :: xs =>
      if x = c then some ([], xs)
      else
        match breakAtChar c xs with
        | none => none
        | some (l, r) => some (x :: l, r)

/-- Is there a `'.'` strictly before the last position of the list?
(`true` exactly when the list splits as `a ++ '.' :: b` with `b ≠ []`.) -/
def dotBeforeEnd : List Char → Bool
  | [] => false
  | [_] => false
  | c :: rest => (c == '.') || dotBeforeEnd rest

/-- Is there a `'.'` at an interior position (neither first nor last)?
This is what the tail `[^\s@]+\.[^\s@]+` of the e-mail regex requires of the
part after the `@`, given that every character of that part is in `[^\s@]`. -/
def interiorDot (r : List Char) : Bool :=
  match r with
  | [] => false
  | _ :: t => dotBeforeEnd t

/-- `validateEmail` from the source: the test of
`/^[^\s@]+@[^\s@]+\.[^\s@]+$/`.  A match forces the separator `@` to be the
first (and only) `@` of the string, a non-empty whitespace-free part before
it, and after it a whitespace-free `@`-free part that decomposes as
`[^\s@]+\.[^\s@]+`, i.e. one with an interior dot. -/
def validateEmail (s : List Char) : Bool :=
  match breakAtChar '@' s with
  | none => false
  | some (l, r) =>
      !l.isEmpty && l.all isEmailChar && r.all isEmailChar && interiorDot r

/-- The phone grammar named by the spec, `[+]?[1-9]\d{9,14}`, written as a
plain decomposition property: an optional `+` prefix, then a digit `1`-`9`,
then 9 to 14 digits. -/
def PhoneGrammar (l : List Char) : Prop :=
  ∃ pre h t, l = pre ++ h :: t ∧ (pre = [] ∨ pre = ['+']) ∧
    isNonZeroDigit h = true ∧ (∀ c ∈ t, c.isDigit = true) ∧
    9 ≤ t.length ∧ t.length ≤ 14

/-- The e-mail grammar the claim describes, taken at its word: one `@`
(the local part is `@`-free and the rest contains no further `@`), a
non-empty whitespace-free local part, and a domain part merely containing a
dot somewhere. -/
def specEmailGrammarTest (s : List Char) : Bool :=
  match breakAtChar '@' s with
  | none => false
  | some (l, r) =>
      !l.isEmpty && l.all isEmailChar && !r.contains '@' && r.contains '.'

/-- The grammar `validateEmail` actually decides: the string splits as
`local ++ '@' :: (a ++ '.' :: b)` with non-empty `local`, `a`, `b`, every
character outside whitespace and `@` — i.e. the dot of the domain is
interior, with at least one domain character on each side. -/
def EmailGrammar (s : List Char) : Prop :=
  ∃ l a b, s = l ++ '@' :: (a ++ '.' :: b) ∧ l ≠ [] ∧ a ≠ [] ∧ b ≠ [] ∧
    (∀ c ∈ l, isEmailChar c = true) ∧ (∀ c ∈ a ++ '.' :: b, isEmailChar c = true)

/-- Concrete input separating the claim's e-mail grammar from the code's. -/
def emailEdgeInput : List Char := ['a', '@', 'x', '.']

/-! ### JavaScript `parseInt` and the invite-creation form
Embedded from `handleSendInvite` in `src/unnamed/part_003` (lines 202-251):
the form collects two recipient descriptors (already normalized by
`handleAddRecipient`), rejects equal descriptors, and otherwise builds the
`inviteData` payload sent to `api.createInvite`, with
`expires_in_hours: parseInt(expiresInHours) || 24`. -/

/-- Value of a non-empty digit string. -/
def digitsVal (l : List Char) : Nat :=
  l.foldl (fun acc c => 10 * acc + (c.toNat - '0'.toNat)) 0

/-- Parse the maximal digit prefix of `l`; `none` when there is none
(JavaScript `NaN`), applying the already-consumed sign otherwise. -/
def parseDigitsPrefix (neg : Bool) (l : List Char) : Option Int :=
  let ds := l.takeWhile Char.isDigit
  if ds.isEmpty then none
  else some (if neg then -(digitsVal ds : Int) else (digitsVal ds : Int))

/-- JavaScript `parseInt` on a decimal string: skip leading whitespace, read
an optional sign, then the maximal run of digits; `none` models `NaN` (no
digits).  The automatic hexadecimal radix of `parseInt` on `0x`-prefixed
input is not modelled; the field is a number-pad hours entry. -/
def jsParseInt (s : List Char) : Option Int :=
  match s.dropWhile isSpaceChar with
  | [] => none
  | c :: rest =>
      if c = '-' then parseDigitsPrefix true rest
      else if c = '+' then parseDigitsPrefix false rest
      else parseDigitsPrefix false (c :: rest)

/-- `parseInt(expiresInHours) || 24`: JavaScript `||` replaces the falsy
results `NaN` and `0` by the default `24`. -/
def expiresInHoursValue (s : List Char) : Int :=
  match jsParseInt s with
  | none => 24
  | some n => if n = 0 then 24 else n

/-- The three recipient channels of the invite form. -/
inductive RecipientType
  | username
  | email
  | phone
deriving DecidableEq

/-- A recipient descriptor held by the form state (`Recipient` in
`part_003`): exactly one channel and its already-normalized value. -/
structure Recipient where
  rtype : RecipientType
  value : List Char
deriving DecidableEq

/-- Client-side rejections of `handleSendInvite` that occur before the
`api.createInvite` call (the spec's `SameRecipient` conflict and the
missing-recipient validation error). -/
inductive CreateInviteClientError
  | missingRecipient
  | sameRecipient
deriving DecidableEq

/-- The `inviteData` object posted to `api.createInvite`. -/
structure InvitePayload where
  recipient1Username : Option (List Char)
  recipient1Email : Option (List Char)
  recipient1Phone : Option (List Char)
  recipient2Username : Option (List Char)
  recipient2Email : Option (List Char)
  recipient2Phone : Option (List Char)
  expiresInHours : Int
deriving DecidableEq

/-- `recipient.type === t ? recipient.value : null`. -/
def channelField (r : Recipient) (t : RecipientType) : Option (List Char) :=
  if r.rtype = t then some r.value else none

/-- The `inviteData` literal of `handleSendInvite` (lines 216-224). -/
def mkInvitePayload (r1 r2 : Recipient) (hoursText : List Char) : InvitePayload :=
  { recipient1Username := channelField r1 .username
    recipient1Email := channelField r1 .email
    recipient1Phone := channelField r1 .phone
    recipient2Username := channelField r2 .username
    recipient2Email := channelField r2 .email
    recipient2Phone := channelField r2 .phone
    expiresInHours := expiresInHoursValue hoursText }

/-- `handleSendInvite` (lines 202-251), up to the point where the payload is
handed to the HTTP client: both recipients must be present, and two
descriptors with equal value and equal type are rejected ("Recipients must
be different people") with no payload built — hence no invite created and no
state mutated. -/
def handleSendInvite (r1 r2 : Option Recipient) (hoursText : List Char) :
    Except CreateInviteClientError InvitePayload :=
  match r1, r2 with
  | some r1, some r2 =>
      if r1.value = r2.value ∧ r1.rtype = r2.rtype then .error .sameRecipient
      else .ok (mkInvitePayload r1 r2 hoursText)
  | _, _ => .error .missingRecipient

/-! ### The sent-invites projection
Embedded from `SentInvitesView.tsx`: `getStatusBadge` (lines 127-157) and
the Resend-button guard of `renderInvite` (line 197). -/

/-- One recipient slot of a sent-invite snapshot. -/
structure SentRecipient where
  recipientNumber : Nat
  rtype : RecipientType
  value : List Char
  accepted : Bool
deriving DecidableEq

/-- A sent-invite snapshot as the view receives it (`SentInvite`). -/
structure SentInvite where
  inviteCode : List Char
  isExpired : Bool
  recipients : List SentRecipient
  threadCreated : Bool
deriving DecidableEq

/-- The five status badges `getStatusBadge` can produce, keyed by their
display texts "✓ Connected", "⏰ Expired", "✓ Both Accepted",
"⏳ 1 Accepted" and "⏳ Pending". -/
inductive StatusBadge
  | connected
  | expired
  | bothAccepted
  | oneAccepted
  | pending
deriving DecidableEq

/-- `invite.recipients.filter(r => r.accepted).length`. -/
def acceptedCount (inv : SentInvite) : Nat :=
  (inv.recipients.filter (fun r => r.accepted)).length

/-- `getStatusBadge` from `SentInvitesView.tsx` (lines 127-157). -/
def getStatusBadge (inv : SentInvite) : StatusBadge :=
  if inv.threadCreated then .connected
  else if inv.isExpired then .expired
  else if acceptedCount inv = 2 then .bothAccepted
  else if acceptedCount inv = 1 then .oneAccepted
  else .pending

/-- The guard of the Resend button in `renderInvite` (line 197):
`!recipient.accepted && !item.is_expired && !item.thread_created`. -/
def resendOffered (inv : SentInvite) (r : SentRecipient) : Bool :=
  !r.accepted && !inv.isExpired && !inv.threadCreated

/-! ### Notification dispatch -/

/-- What the dispatcher knows of a recipient: registration and the contact
channels carried by the payload. -/
structure NotifRecipient where
  isRegisteredUser : Bool
  email : Option (List Char)
  phone : Option (List Char)
deriving DecidableEq

/-- The delivery channels. -/
inductive NotifMethod
  | inApp
  | email
  | sms
deriving DecidableEq

/-- `NotificationResult{sent, method}` as the create response carries it. -/
structure NotificationResult where
  sent : Bool
  method : Option NotifMethod
deriving DecidableEq

/-- Modelled from the spec: the Notification Dispatcher's method-selection
policy (section 4.4), a backend rule visible to this repository only through
the `notifications` field of the `api.createInvite` response — "if recipient
is a registered user → `in_app`; else if payload carries an email →
`email`; else if phone → `sms`; else `sent=false`". -/
def notify (r : NotifRecipient) : NotificationResult :=
  if r.isRegisteredUser then ⟨true, some .inApp⟩
  else
    match r.email with
    | some _ => ⟨true, some .email⟩
    | none =>
        match r.phone with
        | some _ => ⟨true, some .sms⟩
        | none => ⟨false, none⟩

/-- `getNotificationMethod` from `src/unnamed/part_003` (lines 253-259):
the client's rendering of a per-recipient notification result. -/
def getNotificationMethod (nr : NotificationResult) : String :=
  if !nr.sent then "notification failed"
  else
    match nr.method with
    | some .inApp => "in-app notification"
    | some .email => "email sent"
    | some .sms => "SMS sent"
    | none => "notification sent"

/-! ### The invite lifecycle engine, modelled from the spec
The engine itself lives in the backend; this repository holds only its HTTP
client (`api.createInvite` / `acceptInvite` / `resendInvite` /
`checkInviteStatus` in `src/unnamed/part_000`).  The definitions below are
modelled from spec sections 4.3 and 3 ("Invite"); time is an integer
measured in hours. -/

/-- One recipient slot of a backend invite: channel, normalized value,
acceptance flag, and the resolved user reference a `username` slot carries. -/
structure MSlot where
  rtype : RecipientType
  value : List Char
  accepted : Bool
  resolvedUser : Option (List Char)
deriving DecidableEq

/-- The two slot positions. -/
inductive SlotId
  | one
  | two
deriving DecidableEq

/-- Modelled from the spec: the backend `Invite` record (section 3) —
creator, creation and expiry instants, exactly two recipient slots, and the
terminal `thread_created` flag. -/
structure MInvite where
  createdBy : List Char
  createdAt : Int
  expiresAt : Int
  slot1 : MSlot
  slot2 : MSlot
  threadCreated : Bool
deriving DecidableEq

/-- The backend's invite table, keyed by code (codes embedded as `Nat`). -/
abbrev InviteStore := List (Nat × MInvite)

/-- First invite stored under `code`, if any. -/
def findInvite : InviteStore → Nat → Option MInvite
  | [], _ => none
  | (c, inv) :: rest, code => if c = code then some inv else findInvite rest code

/-- Replace the invite stored under `code`. -/
def storeUpdate (store : InviteStore) (code : Nat) (inv : MInvite) : InviteStore :=
  store.map (fun p => if p.1 = code then (p.1, inv) else p)

/-- Modelled from the spec: lazy expiry, `now > expiresAt` (sections 3
and 4.3, `checkStatus`). -/
def isExpiredAt (inv : MInvite) (t : Int) : Bool :=
  decide (inv.expiresAt < t)

/-- Select a slot. -/
def slotOf (inv : MInvite) : SlotId → MSlot
  | .one => inv.slot1
  | .two => inv.slot2

/-- The invite snapshot `checkInviteStatus` returns (per-slot acceptance,
computed `is_expired`, `thread_created`, `expires_at`). -/
structure MSnapshot where
  recipient1Accepted : Bool
  recipient2Accepted : Bool
  isExpired : Bool
  threadCreated : Bool
  expiresAt : Int
deriving DecidableEq

/-- Modelled from the spec: `checkStatus(code)` — read-only, `is_expired`
computed from the current time against `expiresAt` at read time. -/
def checkInviteStatus (store : InviteStore) (code : Nat) (t : Int) : Option MSnapshot :=
  (findInvite store code).map (fun inv =>
    ⟨inv.slot1.accepted, inv.slot2.accepted, isExpiredAt inv t,
      inv.threadCreated, inv.expiresAt⟩)

/-- An accepting identity: a registered user and their contact channels. -/
structure MIdentity where
  username : List Char
  email : Option (List Char)
  phone : Option (List Char)
deriving DecidableEq

/-- Modelled from the spec: slot/identity matching for `accept` — a
`username` slot requires the resolved user, an `email`/`phone` slot requires
a registered identity whose contact channel equals the slot value. -/
def identMatchesSlot (slot : MSlot) (ident : MIdentity) : Bool :=
  match slot.rtype with
  | .username =>
      match slot.resolvedUser with
      | some u => decide (ident.username = u)
      | none => false
  | .email => decide (ident.email = some slot.value)
  | .phone => decide (ident.phone = some slot.value)

/-- The failure kinds of `accept` and `resend` (section 6). -/
inductive MInviteError
  | notFound
  | expired
  | alreadyAccepted
  | slotMismatch
deriving DecidableEq

/-- Mark one slot accepted. -/
def setSlotAccepted (inv : MInvite) : SlotId → MInvite
  | .one => { inv with slot1 := { inv.slot1 with accepted := true } }
  | .two => { inv with slot2 := { inv.slot2 with accepted := true } }

/-- On the second acceptance, mark `thread_created`. -/
def resolveIfBoth (inv : MInvite) : MInvite :=
  if inv.slot1.accepted && inv.slot2.accepted then
    { inv with threadCreated := true }
  else inv

/-- Modelled from the spec: `accept(code, actingIdentity, recipientNumber)`
(section 4.3) — `NotFound` for an unknown code, `Expired` past `expiresAt`
(terminal, no recovery), `AlreadyAccepted` for an already-accepted slot,
`SlotMismatch` when the identity does not match the slot; otherwise the slot
is marked accepted and the invite resolves when both slots are. -/
def acceptInvite (store : InviteStore) (code : Nat) (ident : MIdentity)
    (s : SlotId) (t : Int) : Except MInviteError InviteStore :=
  match findInvite store code with
  | none => .error .notFound
  | some inv =>
      if isExpiredAt inv t then .error .expired
      else if (slotOf inv s).accepted then .error .alreadyAccepted
      else if !identMatchesSlot (slotOf inv s) ident then .error .slotMismatch
      else .ok (storeUpdate store code (resolveIfBoth (setSlotAccepted inv s)))

/-- The re-fired notification of a `resend`: the targeted slot. -/
structure SlotNotification where
  slot : SlotId
deriving DecidableEq

/-- Modelled from the spec: `resend(code, recipientNumber)` (section 4.3) —
fails with `NotFound`, `Expired`, or `AlreadyAccepted` for that slot;
otherwise re-fires the Notification Dispatcher for that slot only and writes
the invite back unchanged. -/
def resendInvite (store : InviteStore) (code : Nat) (s : SlotId) (t : Int) :
    Except MInviteError (InviteStore × SlotNotification) :=
  match findInvite store code with
  | none => .error .notFound
  | some inv =>
      if isExpiredAt inv t then .error .expired
      else if (slotOf inv s).accepted then .error .alreadyAccepted
      else .ok (storeUpdate store code inv, ⟨s⟩)

/-- Modelled from the spec: the record built by
`create(createdBy, r1, r2, ttlHours)` — persisted with
`expiresAt = now + ttlHours` (section 4.3). -/
def createInviteRecord (createdBy : List Char) (slot1 slot2 : MSlot)
    (ttlHours : Int) (t : Int) : MInvite :=
  { createdBy := createdBy, createdAt := t, expiresAt := t + ttlHours,
    slot1 := slot1, slot2 := slot2, threadCreated := false }

/-- Modelled from the spec: what the dispatcher knows of a freshly created
slot — a `username` slot is a registered user exactly when resolved, an
`email`/`phone` slot carries only that external contact. -/
def slotNotifRecipient (s : MSlot) : NotifRecipient :=
  match s.rtype with
  | .username => ⟨s.resolvedUser.isSome, none, none⟩
  | .email => ⟨false, some s.value, none⟩
  | .phone => ⟨false, none, some s.value⟩

/-! ### The relationship state store, modelled from the spec
This repository reaches it only through `api.getRelationshipStatus`
(`src/unnamed/part_000`, lines 294-308); the directional projection is
modelled from spec section 4.2 (`getStatus`). -/

/-- A pending friend request record. -/
structure FriendRequest where
  id : Nat
  requester : List Char
  recipient : List Char
deriving DecidableEq

/-- The caller-relative relationship statuses (the client's
`'none' | 'pending_sent' | 'pending_received' | 'friends'` strings). -/
inductive RelStatus
  | noRelation
  | pendingSent
  | pendingReceived
  | friends
deriving DecidableEq

/-- Modelled from the spec: the Relationship State Store — pending requests
and established friendships. -/
structure RelState where
  pending : List FriendRequest
  friendPairs : List (List Char × List Char)

/-- Friendship on the unordered pair. -/
def areFriends (st : RelState) (a b : List Char) : Bool :=
  st.friendPairs.any (fun p =>
    (decide (p.1 = a) && decide (p.2 = b)) || (decide (p.1 = b) && decide (p.2 = a)))

/-- Modelled from the spec: `getStatus(a, b)` (section 4.2) — directional
from the caller's viewpoint: `PENDING_SENT` if the caller initiated the
pending request, `PENDING_RECEIVED` if the caller is its target, together
with the id of the underlying record. -/
def getRelationshipStatus (st : RelState) (caller other : List Char) :
    RelStatus × Option Nat :=
  if areFriends st caller other then (.friends, none)
  else
    match st.pending.find? (fun r =>
        decide (r.requester = caller) && decide (r.recipient = other)) with
    | some r => (.pendingSent, some r.id)
    | none =>
        match st.pending.find? (fun r =>
            decide (r.requester = other) && decide (r.recipient = caller)) with
        | some r => (.pendingReceived, some r.id)
        | none => (.noRelation, none)

/-! ### Concrete instances used by witnesses -/

/-- A resolved username slot. -/
def demoSlot1 : MSlot := ⟨.username, "alice".data, false, some ("alice".data)⟩

/-- An external e-mail slot. -/
def demoSlot2 : MSlot := ⟨.email, "bob@example.com".data, false, none⟩

/-- An invite created at time 0 with a 24-hour ttl. -/
def demoInvite : MInvite := ⟨"carol".data, 0, 24, demoSlot1, demoSlot2, false⟩

/-- A one-invite store under code 1. -/
def demoStore : InviteStore := [(1, demoInvite)]

/-- The identity of the resolved user of `demoSlot1`. -/
def demoIdent : MIdentity := ⟨"alice".data, none, none⟩

/-- The snapshot `checkInviteStatus` yields for `demoStore` at time 25. -/
def demoSnap : MSnapshot := ⟨false, false, true, false, 24⟩

/-! ### Phone validator lemmas -/

lemma handleSendInvite_some_some (r1 r2 : Recipient) (hoursText : List Char) :
    handleSendInvite (some r1) (some r2) hoursText =
      if r1.value = r2.value ∧ r1.rtype = r2.rtype then .error .sameRecipient
      else .ok (mkInvitePayload r1 r2 hoursText) := rfl

lemma isEmpty_eq_false_iff (l : List Char) : l.isEmpty = false ↔ l ≠ [] := by
  cases l <;> simp

lemma phoneCore_iff (l : List Char) :
    phoneCore l = true ↔ ∃ h t, l = h :: t ∧ isNonZeroDigit h = true ∧
      (∀ c ∈ t, c.isDigit = true) ∧ 9 ≤ t.length ∧ t.length ≤ 14 := by
  cases l with
  | nil =>
      constructor
      · intro h; simp [phoneCore] at h
      · rintro ⟨h, t, heq, -⟩; exact absurd heq (by simp)
  | cons c rest =>
      constructor
      · intro hp
        simp only [phoneCore, Bool.and_eq_true, decide_eq_true_eq,
          List.all_eq_true] at hp
        exact ⟨c, rest, rfl, hp.1.1.1, hp.1.1.2, hp.1.2, hp.2⟩
      · rintro ⟨h, t, heq, h1, h2, h3, h4⟩
        cases heq
        simp only [phoneCore, Bool.and_eq_true, decide_eq_true_eq,
          List.all_eq_true]
        exact ⟨⟨⟨h1, h2⟩, h3⟩, h4⟩

lemma phoneRegexTest_iff (l : List Char) :
    phoneRegexTest l = true ↔ PhoneGrammar l := by
  cases l with
  | nil =>
      constructor
      · intro h; simp [phoneRegexTest, startsWithPlus, phoneCore] at h
      · rintro ⟨pre, h, t, heq, -⟩; exact absurd heq (by simp)
  | cons c rest =>
      by_cases hc : c = '+'
      · subst hc
        have hred : phoneRegexTest ('+' :: rest) = phoneCore rest := by
          simp [phoneRegexTest, startsWithPlus]
        rw [hred, phoneCore_iff]
        constructor
        · rintro ⟨h, t, heq, h1, h2, h3, h4⟩
          exact ⟨['+'], h, t, by rw [heq]; rfl, Or.inr rfl, h1, h2, h3, h4⟩
        · rintro ⟨pre, h, t, heq, hpre, h1, h2, h3, h4⟩
          rcases hpre with hpre | hpre
          · subst hpre
            simp only [List.nil_append, List.cons.injEq] at heq
            rw [← heq.1] at h1
            exact absurd h1 (by decide)
          · subst hpre
            simp only [List.cons_append, List.cons.injEq, List.nil_append] at heq
            exact ⟨h, t, heq.2, h1, h2, h3, h4⟩
      · have hred : phoneRegexTest (c :: rest) = phoneCore (c :: rest) := by
          simp [phoneRegexTest, startsWithPlus, hc]
        rw [hred, phoneCore_iff]
        constructor
        · rintro ⟨h, t, heq, h1, h2, h3, h4⟩
          exact ⟨[], h, t, heq, Or.inl rfl, h1, h2, h3, h4⟩
        · rintro ⟨pre, h, t, heq, hpre, h1, h2, h3, h4⟩
          rcases hpre with hpre | hpre
          · subst hpre
            exact ⟨h, t, heq, h1, h2, h3, h4⟩
          · subst hpre
            simp only [List.cons_append, List.cons.injEq, List.nil_append] at heq
            exact absurd heq.1 hc

lemma formatPhoneNumber_def (s : List Char) :
    formatPhoneNumber s =
      if startsWithPlus (stripPhone s) = true then stripPhone s
      else '+' :: '1' :: stripPhone s := rfl

lemma formatPhoneNumber_of_plus (s : List Char)
    (h : startsWithPlus (stripPhone s) = true) :
    formatPhoneNumber s = stripPhone s := by
  simp [formatPhoneNumber, h]

lemma formatPhoneNumber_of_not_plus (s : List Char)
    (h : startsWithPlus (stripPhone s) = false) :
    formatPhoneNumber s = '+' :: '1' :: stripPhone s := by
  simp [formatPhoneNumber, h]

lemma mem_formatPhoneNumber_not_sep (s : List Char) :
    ∀ c ∈ formatPhoneNumber s, isSepChar c = false := by
  intro c hc
  have hstrip : ∀ d ∈ stripPhone s, isSepChar d = false := by
    intro d hd
    have := List.of_mem_filter hd
    simpa using this
  by_cases h : startsWithPlus (stripPhone s) = true
  · rw [formatPhoneNumber_of_plus s h] at hc
    exact hstrip c hc
  · have h' : startsWithPlus (stripPhone s) = false := by simpa using h
    rw [formatPhoneNumber_of_not_plus s h'] at hc
    simp only [List.mem_cons] at hc
    rcases hc with rfl | rfl | hc
    · decide
    · decide
    · exact hstrip c hc

lemma stripPhone_formatPhoneNumber (s : List Char) :
    stripPhone (formatPhoneNumber s) = formatPhoneNumber s := by
  apply List.filter_eq_self.mpr
  intro a ha
  simp [mem_formatPhoneNumber_not_sep s a ha]

lemma startsWithPlus_formatPhoneNumber (s : List Char) :
    startsWithPlus (formatPhoneNumber s) = true := by
  by_cases h : startsWithPlus (stripPhone s) = true
  · rw [formatPhoneNumber_of_plus s h]; exact h
  · have h' : startsWithPlus (stripPhone s) = false := by simpa using h
    rw [formatPhoneNumber_of_not_plus s h']; rfl

/-! ### E-mail validator lemmas -/

lemma breakAtChar_eq_some {c : Char} {s l r : List Char}
    (h : breakAtChar c s = some (l, r)) : s = l ++ c :: r ∧ c ∉ l := by
  induction s generalizing l with
  | nil => simp [breakAtChar] at h
  | cons x xs ih =>
      by_cases hx : x = c
      · subst hx
        simp [breakAtChar] at h
        obtain ⟨rfl, rfl⟩ := h
        simp
      · simp only [breakAtChar, if_neg hx] at h
        cases hbk : breakAtChar c xs with
        | none => rw [hbk] at h; simp at h
        | some p =>
            obtain ⟨l', r'⟩ := p
            rw [hbk] at h
            simp at h
            obtain ⟨rfl, rfl⟩ := h
            obtain ⟨heq, hmem⟩ := ih hbk
            constructor
            · rw [heq]; rfl
            · intro hmem2
              rcases List.mem_cons.mp hmem2 with rfl | hmem2
              · exact hx rfl
              · exact hmem hmem2

lemma breakAtChar_append {c : Char} {l r : List Char} (h : c ∉ l) :
    breakAtChar c (l ++ c :: r) = some (l, r) := by
  induction l with
  | nil => simp [breakAtChar]
  | cons x xs ih =>
      have hx : x ≠ c := fun hx => h (hx ▸ List.mem_cons_self x xs)
      have hxs : c ∉ xs := fun hm => h (List.mem_cons_of_mem x hm)
      simp only [List.cons_append, breakAtChar, List.append_eq, if_neg hx]
      rw [ih hxs]

lemma dotBeforeEnd_iff (l : List Char) :
    dotBeforeEnd l = true ↔ ∃ a b, l = a ++ '.' :: b ∧ b ≠ [] := by
  induction l with
  | nil =>
      constructor
      · intro h; simp [dotBeforeEnd] at h
      · rintro ⟨a, b, heq, -⟩; exact absurd heq (by simp)
  | cons c rest ih =>
      cases rest with
      | nil =>
          constructor
          · intro h; simp [dotBeforeEnd] at h
          · rintro ⟨a, b, heq, hb⟩
            exfalso
            cases a with
            | nil =>
                simp only [List.nil_append, List.cons.injEq] at heq
                exact hb heq.2.symm
            | cons y a' =>
                simp only [List.cons_append, List.cons.injEq] at heq
                exact absurd heq.2.symm (by simp)
      | cons d rest' =>
          constructor
          · intro h
            rw [show dotBeforeEnd (c :: d :: rest') =
              ((c == '.') || dotBeforeEnd (d :: rest')) from rfl] at h
            rcases Bool.or_eq_true_iff.mp h with hc | hrest
            · have : c = '.' := by simpa using hc
              exact ⟨[], d :: rest', by simp [this], by simp⟩
            · obtain ⟨a, b, heq, hb⟩ := ih.mp hrest
              exact ⟨c :: a, b, by rw [heq]; rfl, hb⟩
          · rintro ⟨a, b, heq, hb⟩
            rw [show dotBeforeEnd (c :: d :: rest') =
              ((c == '.') || dotBeforeEnd (d :: rest')) from rfl]
            cases a with
            | nil =>
                simp only [List.nil_append, List.cons.injEq] at heq
                apply Bool.or_eq_true_iff.mpr
                exact Or.inl (by simp [heq.1])
            | cons y a' =>
                simp only [List.cons_append, List.cons.injEq] at heq
                apply Bool.or_eq_true_iff.mpr
                exact Or.inr (ih.mpr ⟨a', b, heq.2, hb⟩)

lemma interiorDot_iff (r : List Char) :
    interiorDot r = true ↔ ∃ a b, r = a ++ '.' :: b ∧ a ≠ [] ∧ b ≠ [] := by
  cases r with
  | nil =>
      constructor
      · intro h; simp [interiorDot] at h
      · rintro ⟨a, b, heq, -, -⟩; exact absurd heq (by simp)
  | cons x t =>
      rw [show interiorDot (x :: t) = dotBeforeEnd t from rfl, dotBeforeEnd_iff]
      constructor
      · rintro ⟨a, b, heq, hb⟩
        exact ⟨x :: a, b, by rw [heq]; rfl, by simp, hb⟩
      · rintro ⟨a, b, heq, ha, hb⟩
        cases a with
        | nil => exact absurd rfl ha
        | cons y a' =>
            simp only [List.cons_append, List.cons.injEq] at heq
            exact ⟨a', b, heq.2, hb⟩

/-! ### Claims C4, C10, C8 -/

/-- C4: resolving a phone descriptor strips the separator characters
(space, dash, parentheses, dot), accepts exactly the strings whose stripped
form matches `[+]?[1-9]\d{9,14}`, and — when the stripped value has no
leading `+` — prepends the default country calling code `+1` to produce the
normalized value; a stripped value that already has the leading `+` is kept
as is.  (The default code is the fixed `+1` of the source.) -/
theorem phone_descriptor_resolution (s : List Char) :
    (validatePhone s = true ↔ PhoneGrammar (stripPhone s)) ∧
    (startsWithPlus (stripPhone s) = false →
      formatPhoneNumber s = '+' :: '1' :: stripPhone s) ∧
    (startsWithPlus (stripPhone s) = true →
      formatPhoneNumber s = stripPhone s) :=
  ⟨phoneRegexTest_iff (stripPhone s),
   formatPhoneNumber_of_not_plus s,
   formatPhoneNumber_of_plus s⟩

/-- Witness for C4 at the concrete input `"(212) 456-7890"`. -/
theorem phone_descriptor_resolution_witness :
    PhoneGrammar (stripPhone ("(212) 456-7890".data)) ∧
    formatPhoneNumber ("(212) 456-7890".data) = "+12124567890".data :=
  ⟨(phone_descriptor_resolution ("(212) 456-7890".data)).1.mp (by decide),
   by rw [(phone_descriptor_resolution ("(212) 456-7890".data)).2.1 (by decide)]; decide⟩

/-- C10: phone normalization is idempotent — the output of
`formatPhoneNumber` always begins with `+` and contains no separator
character, so normalizing it again changes nothing. -/
theorem formatPhoneNumber_idempotent (s : List Char) :
    formatPhoneNumber (formatPhoneNumber s) = formatPhoneNumber s := by
  rw [formatPhoneNumber_def (formatPhoneNumber s), stripPhone_formatPhoneNumber s,
    startsWithPlus_formatPhoneNumber s]
  simp

/-- C8, counterexample: the claim's grammar ("one `@`, non-empty
whitespace-free local part, domain containing a dot") accepts `"a@x."`,
but `validateEmail` rejects it — the regex
`/^[^\s@]+@[^\s@]+\.[^\s@]+$/` demands a character after the dot. -/
theorem email_grammar_counterexample :
    specEmailGrammarTest emailEdgeInput = true ∧
    validateEmail emailEdgeInput = false := by
  decide

/-- C8, amended: resolving an e-mail descriptor succeeds exactly when the
input splits as `local@domain` with a non-empty local part, both parts free
of whitespace and `@`, and the domain containing an interior dot — a dot
with at least one domain character on each side. -/
theorem validateEmail_iff_grammar (s : List Char) :
    validateEmail s = true ↔ EmailGrammar s := by
  constructor
  · intro h
    unfold validateEmail at h
    cases hbk : breakAtChar '@' s with
    | none => rw [hbk] at h; simp at h
    | some p =>
        obtain ⟨l, r⟩ := p
        rw [hbk] at h
        simp only [Bool.and_eq_true, List.all_eq_true, Bool.not_eq_true',
          isEmpty_eq_false_iff] at h
        obtain ⟨⟨⟨hne, hl⟩, hr⟩, hdot⟩ := h
        obtain ⟨heq, -⟩ := breakAtChar_eq_some hbk
        obtain ⟨a, b, hr_eq, ha, hb⟩ := (interiorDot_iff r).mp hdot
        refine ⟨l, a, b, ?_, hne, ha, hb, hl, ?_⟩
        · rw [heq, hr_eq]
        · rw [← hr_eq]; exact hr
  · rintro ⟨l, a, b, heq, hl0, ha, hb, hl, hr⟩
    have hnotat : '@' ∉ l := fun hm => absurd (hl '@' hm) (by decide)
    have hbk : breakAtChar '@' s = some (l, a ++ '.' :: b) := by
      rw [heq]; exact breakAtChar_append hnotat
    unfold validateEmail
    rw [hbk]
    simp only [Bool.and_eq_true, List.all_eq_true, Bool.not_eq_true',
      isEmpty_eq_false_iff]
    exact ⟨⟨⟨hl0, hl⟩, hr⟩, (interiorDot_iff _).mpr ⟨a, b, rfl, ha, hb⟩⟩

/-- Witness for the amended C8 at the concrete input `"u@d.c"`. -/
theorem validateEmail_iff_grammar_witness :
    EmailGrammar ("u@d.c".data) :=
  (validateEmail_iff_grammar ("u@d.c".data)).mp (by decide)

/-! ### Claim C3 -/

/-- C3: `handleSendInvite` rejects two recipient descriptors whose
(normalized) value and channel coincide with the `SameRecipient` conflict
before the payload for `api.createInvite` is ever built — and a successful
creation certifies the descriptors differed. -/
theorem same_recipient_rejected (r1 r2 : Recipient) (hoursText : List Char) :
    (r1.value = r2.value → r1.rtype = r2.rtype →
      handleSendInvite (some r1) (some r2) hoursText = .error .sameRecipient) ∧
    (∀ p, handleSendInvite (some r1) (some r2) hoursText = .ok p →
      ¬(r1.value = r2.value ∧ r1.rtype = r2.rtype)) := by
  constructor
  · intro hv ht
    simp [handleSendInvite, hv, ht]
  · intro p hp hsame
    simp [handleSendInvite, hsame.1, hsame.2] at hp

/-- Witness for C3: two identical e-mail descriptors are rejected. -/
theorem same_recipient_rejected_witness :
    handleSendInvite (some ⟨.email, "x@y.zz".data⟩) (some ⟨.email, "x@y.zz".data⟩)
      ("24".data) = .error .sameRecipient :=
  (same_recipient_rejected ⟨.email, "x@y.zz".data⟩ ⟨.email, "x@y.zz".data⟩
    ("24".data)).1 rfl rfl

/-! ### Claim C7 -/

/-- C7: the time-to-live defaults to 24 hours — when the hours field does
not parse to a number (`parseInt` gives `NaN`), the payload built by
`handleSendInvite` carries `expires_in_hours = 24`; and the created invite's
expiry instant is its creation instant plus the ttl. -/
theorem ttl_defaults_to_24 (r1 r2 : Recipient) (hoursText : List Char)
    (p : InvitePayload) (cb : List Char) (s1 s2 : MSlot) (ttl t : Int) :
    (handleSendInvite (some r1) (some r2) hoursText = .ok p →
      jsParseInt hoursText = none → p.expiresInHours = 24) ∧
    ((createInviteRecord cb s1 s2 ttl t).expiresAt =
      (createInviteRecord cb s1 s2 ttl t).createdAt + ttl) := by
  constructor
  · intro hp hnone
    rw [handleSendInvite_some_some] at hp
    by_cases hsame : r1.value = r2.value ∧ r1.rtype = r2.rtype
    · rw [if_pos hsame] at hp; exact absurd hp (by simp)
    · rw [if_neg hsame] at hp
      cases hp
      simp [mkInvitePayload, expiresInHoursValue, hnone]
  · rfl

/-- Witness for C7: an unparseable (empty) hours entry yields a payload
with `expires_in_hours = 24`, and an invite created at time 100 with
ttl 24 expires at `createdAt + 24`. -/
theorem ttl_defaults_to_24_witness :
    (mkInvitePayload ⟨.username, "alice".data⟩ ⟨.email, "bob@example.com".data⟩
      []).expiresInHours = 24 ∧
    (createInviteRecord ("carol".data) demoSlot1 demoSlot2 24 100).expiresAt =
      (createInviteRecord ("carol".data) demoSlot1 demoSlot2 24 100).createdAt + 24 :=
  ⟨(ttl_defaults_to_24 ⟨.username, "alice".data⟩ ⟨.email, "bob@example.com".data⟩
      [] (mkInvitePayload ⟨.username, "alice".data⟩
        ⟨.email, "bob@example.com".data⟩ []) ("carol".data) demoSlot1 demoSlot2
      24 100).1 rfl rfl,
   (ttl_defaults_to_24 ⟨.username, "alice".data⟩ ⟨.email, "bob@example.com".data⟩
      [] (mkInvitePayload ⟨.username, "alice".data⟩
        ⟨.email, "bob@example.com".data⟩ []) ("carol".data) demoSlot1 demoSlot2
      24 100).2⟩

/-! ### Claim C2 -/

/-- C2: notification-method selection is deterministic per recipient —
registered user ⇒ `in_app`; otherwise an e-mail contact ⇒ `email`;
otherwise a phone contact ⇒ `sms`; otherwise `sent = false`.  In
particular a resolved username slot of a fresh invite is rendered by the
client as "in-app notification" and an e-mail slot as "email sent". -/
theorem notification_method_policy :
    (∀ r : NotifRecipient, r.isRegisteredUser = true →
      notify r = ⟨true, some .inApp⟩) ∧
    (∀ (r : NotifRecipient) (e : List Char), r.isRegisteredUser = false →
      r.email = some e → notify r = ⟨true, some .email⟩) ∧
    (∀ (r : NotifRecipient) (ph : List Char), r.isRegisteredUser = false →
      r.email = none → r.phone = some ph → notify r = ⟨true, some .sms⟩) ∧
    (∀ r : NotifRecipient, r.isRegisteredUser = false → r.email = none →
      r.phone = none → notify r = ⟨false, none⟩) ∧
    (∀ (sl : MSlot) (u : List Char), sl.rtype = .username →
      sl.resolvedUser = some u →
      getNotificationMethod (notify (slotNotifRecipient sl)) = "in-app notification") ∧
    (∀ sl : MSlot, sl.rtype = .email →
      getNotificationMethod (notify (slotNotifRecipient sl)) = "email sent") := by
  refine ⟨?_, ?_, ?_, ?_, ?_, ?_⟩
  · intro r h; simp [notify, h]
  · intro r e h he; simp [notify, h, he]
  · intro r ph h he hp; simp [notify, h, he, hp]
  · intro r h he hp; simp [notify, h, he, hp]
  · intro sl u ht hu
    simp [slotNotifRecipient, ht, hu, notify, getNotificationMethod]
  · intro sl ht
    simp [slotNotifRecipient, ht, notify, getNotificationMethod]

/-- Witness for C2: a registered recipient is dispatched in-app, and the
e-mail slot `demoSlot2` is rendered "email sent". -/
theorem notification_method_policy_witness :
    notify ⟨true, none, none⟩ = ⟨true, some .inApp⟩ ∧
    getNotificationMethod (notify (slotNotifRecipient demoSlot2)) = "email sent" :=
  ⟨notification_method_policy.1 ⟨true, none, none⟩ rfl,
   notification_method_policy.2.2.2.2.2 demoSlot2 rfl⟩

/-! ### Claim C9 -/

/-- C9: in the sent-invites projection, resolution dominates expiry — a
`thread_created` invite shows Connected even when also expired; Expired
shows only when `thread_created` is false; otherwise the badge is a
function of the number of accepted slots alone (2 ⇒ Both Accepted,
1 ⇒ 1 Accepted, 0 ⇒ Pending). -/
theorem sent_invite_status_badge (inv : SentInvite) :
    (inv.threadCreated = true → getStatusBadge inv = .connected) ∧
    (inv.threadCreated = false → inv.isExpired = true →
      getStatusBadge inv = .expired) ∧
    (getStatusBadge inv = .expired → inv.threadCreated = false) ∧
    (inv.threadCreated = false → inv.isExpired = false →
      ((acceptedCount inv = 2 → getStatusBadge inv = .bothAccepted) ∧
       (acceptedCount inv = 1 → getStatusBadge inv = .oneAccepted) ∧
       (acceptedCount inv = 0 → getStatusBadge inv = .pending))) ∧
    (∀ inv' : SentInvite, inv.threadCreated = false → inv.isExpired = false →
      inv'.threadCreated = false → inv'.isExpired = false →
      acceptedCount inv = acceptedCount inv' →
      getStatusBadge inv = getStatusBadge inv') := by
  refine ⟨?_, ?_, ?_, ?_, ?_⟩
  · intro h; simp [getStatusBadge, h]
  · intro h1 h2; simp [getStatusBadge, h1, h2]
  · intro h
    by_cases htc : inv.threadCreated = true
    · simp [getStatusBadge, htc] at h
    · simpa using htc
  · intro h1 h2
    refine ⟨?_, ?_, ?_⟩ <;> intro hc <;> simp [getStatusBadge, h1, h2, hc]
  · intro inv' h1 h2 h1' h2' hcount
    simp [getStatusBadge, h1, h2, h1', h2', hcount]

/-- Witness for C9: an invite that is both resolved and expired still shows
Connected. -/
theorem sent_invite_status_badge_witness :
    getStatusBadge ⟨"AB12".data, true,
      [⟨1, .username, "alice".data, true⟩, ⟨2, .email, "bob@example.com".data, true⟩],
      true⟩ = .connected :=
  (sent_invite_status_badge ⟨"AB12".data, true,
    [⟨1, .username, "alice".data, true⟩, ⟨2, .email, "bob@example.com".data, true⟩],
    true⟩).1 rfl

/-! ### Claim C6 -/

/-- C6: relationship status is directional and symmetric — with a single
pending request on record, its requester sees `pending_sent` and its
recipient sees `pending_received`, both carrying the id of that same
record. -/
theorem relationship_status_symmetric (req : FriendRequest) (st : RelState)
    (hp : st.pending = [req]) (hf : st.friendPairs = [])
    (hne : req.requester ≠ req.recipient) :
    getRelationshipStatus st req.requester req.recipient =
      (.pendingSent, some req.id) ∧
    getRelationshipStatus st req.recipient req.requester =
      (.pendingReceived, some req.id) := by
  have hfr : ∀ a b, areFriends st a b = false := by
    intro a b; simp [areFriends, hf]
  constructor
  · unfold getRelationshipStatus
    rw [hfr, hp]
    simp [List.find?]
  · unfold getRelationshipStatus
    rw [hfr, hp]
    simp [List.find?, hne, Ne.symm hne]

/-- Witness for C6: the request record 7 from alice to carol. -/
theorem relationship_status_symmetric_witness :
    getRelationshipStatus ⟨[⟨7, "alice".data, "carol".data⟩], []⟩
      ("alice".data) ("carol".data) = (.pendingSent, some 7) ∧
    getRelationshipStatus ⟨[⟨7, "alice".data, "carol".data⟩], []⟩
      ("carol".data) ("alice".data) = (.pendingReceived, some 7) :=
  relationship_status_symmetric ⟨7, "alice".data, "carol".data⟩
    ⟨[⟨7, "alice".data, "carol".data⟩], []⟩ rfl rfl (by decide)

/-! ### Store lemmas for claims C1 and C5 -/

lemma storeUpdate_cons (k : Nat) (v : MInvite) (rest : InviteStore)
    (code : Nat) (inv : MInvite) :
    storeUpdate ((k, v) :: rest) code inv =
      (if k = code then (k, inv) else (k, v)) :: storeUpdate rest code inv := rfl

lemma findInvite_cons (k : Nat) (v : MInvite) (rest : InviteStore) (c : Nat) :
    findInvite ((k, v) :: rest) c =
      if k = c then some v else findInvite rest c := rfl

lemma findInvite_storeUpdate_ne (store : InviteStore) (code c : Nat)
    (inv : MInvite) (h : c ≠ code) :
    findInvite (storeUpdate store code inv) c = findInvite store c := by
  induction store with
  | nil => rfl
  | cons p rest ih =>
      obtain ⟨k, v⟩ := p
      rw [storeUpdate_cons]
      by_cases hk : k = code
      · have hkc : k ≠ c := by rw [hk]; exact fun hh => h hh.symm
        rw [if_pos hk, findInvite_cons, findInvite_cons, if_neg hkc, if_neg hkc, ih]
      · rw [if_neg hk, findInvite_cons, findInvite_cons, ih]

lemma findInvite_storeUpdate_self (store : InviteStore) (code : Nat)
    (inv : MInvite) (h : findInvite store code = some inv) :
    findInvite (storeUpdate store code inv) code = some inv := by
  induction store with
  | nil => simp [findInvite] at h
  | cons p rest ih =>
      obtain ⟨k, v⟩ := p
      rw [storeUpdate_cons]
      by_cases hk : k = code
      · rw [if_pos hk, findInvite_cons, if_pos hk]
      · rw [if_neg hk, findInvite_cons, if_neg hk]
        rw [findInvite_cons, if_neg hk] at h
        exact ih h

lemma findInvite_storeUpdate_of_found (store : InviteStore) (code : Nat)
    (inv : MInvite) (h : findInvite store code = some inv) (c : Nat) :
    findInvite (storeUpdate store code inv) c = findInvite store c := by
  by_cases hc : c = code
  · subst hc
    rw [findInvite_storeUpdate_self store c inv h, h]
  · exact findInvite_storeUpdate_ne store code c inv hc

/-! ### Claim C1 -/

/-- C1: expiry is terminal — once `checkInviteStatus` reports
`is_expired = true` for a code, every later (`t1 ≤ t2`) `accept` or `resend`
on that code fails with `Expired`; and in the client the Resend action is
never offered for a slot of an invite whose snapshot says `is_expired`. -/
theorem expired_invite_terminal (store : InviteStore) (code : Nat)
    (t1 t2 : Int) (snap : MSnapshot) (ident : MIdentity) (s : SlotId)
    (hsnap : checkInviteStatus store code t1 = some snap)
    (hexp : snap.isExpired = true) (hle : t1 ≤ t2) :
    acceptInvite store code ident s t2 = .error .expired ∧
    resendInvite store code s t2 = .error .expired ∧
    (∀ (inv : SentInvite) (r : SentRecipient), inv.isExpired = true →
      resendOffered inv r = false) := by
  cases hfind : findInvite store code with
  | none =>
      unfold checkInviteStatus at hsnap
      rw [hfind] at hsnap
      exact absurd hsnap (by simp)
  | some inv =>
      unfold checkInviteStatus at hsnap
      rw [hfind] at hsnap
      simp only [Option.map_some'] at hsnap
      injection hsnap with hsnap
      have hexp1 : isExpiredAt inv t1 = true := by
        rw [← hsnap] at hexp; exact hexp
      have hlt : inv.expiresAt < t1 := by simpa [isExpiredAt] using hexp1
      have hexp2 : isExpiredAt inv t2 = true := by
        simp only [isExpiredAt, decide_eq_true_eq]
        exact lt_of_lt_of_le hlt hle
      refine ⟨?_, ?_, ?_⟩
      · unfold acceptInvite; rw [hfind]; simp [hexp2]
      · unfold resendInvite; rw [hfind]; simp [hexp2]
      · intro i r h; simp [resendOffered, h]

/-- Witness for C1: `demoStore`'s invite, expired by time 25, refuses both
accept and resend at time 30. -/
theorem expired_invite_terminal_witness :
    acceptInvite demoStore 1 demoIdent .one 30 = .error .expired ∧
    resendInvite demoStore 1 .one 30 = .error .expired :=
  ⟨(expired_invite_terminal demoStore 1 25 30 demoSnap demoIdent .one
      rfl rfl (by decide)).1,
   (expired_invite_terminal demoStore 1 25 30 demoSnap demoIdent .one
      rfl rfl (by decide)).2.1⟩

/-! ### Claim C5 -/

/-- C5: `resend` is a pure re-notification — on success it re-fires the
notification for exactly the requested slot and every invite lookup (hence
every `checkInviteStatus` snapshot: acceptance flags, `expires_at`,
`thread_created`) is unchanged; on failure the error is one of `NotFound`,
`Expired`, `AlreadyAccepted`. -/
theorem resend_is_pure (store : InviteStore) (code : Nat) (s : SlotId) (t : Int) :
    (∀ (store' : InviteStore) (n : SlotNotification),
      resendInvite store code s t = .ok (store', n) →
      n.slot = s ∧
      (∀ c, findInvite store' c = findInvite store c) ∧
      (∀ c t', checkInviteStatus store' c t' = checkInviteStatus store c t')) ∧
    (∀ e, resendInvite store code s t = .error e →
      e = .notFound ∨ e = .expired ∨ e = .alreadyAccepted) := by
  cases hfind : findInvite store code with
  | none =>
      have hres : resendInvite store code s t = .error .notFound := by
        unfold resendInvite; rw [hfind]
      constructor
      · intro store' n hok
        rw [hres] at hok
        exact absurd hok (by simp)
      · intro e he
        rw [hres] at he
        injection he with he
        exact Or.inl he.symm
  | some inv =>
      by_cases hexp : isExpiredAt inv t = true
      · have hres : resendInvite store code s t = .error .expired := by
          unfold resendInvite; rw [hfind]; simp [hexp]
        constructor
        · intro store' n hok
          rw [hres] at hok
          exact absurd hok (by simp)
        · intro e he
          rw [hres] at he
          injection he with he
          exact Or.inr (Or.inl he.symm)
      · have hexp' : isExpiredAt inv t = false := by simpa using hexp
        by_cases hacc : (slotOf inv s).accepted = true
        · have hres : resendInvite store code s t = .error .alreadyAccepted := by
            unfold resendInvite; rw [hfind]; simp [hexp', hacc]
          constructor
          · intro store' n hok
            rw [hres] at hok
            exact absurd hok (by simp)
          · intro e he
            rw [hres] at he
            injection he with he
            exact Or.inr (Or.inr he.symm)
        · have hacc' : (slotOf inv s).accepted = false := by simpa using hacc
          have hres : resendInvite store code s t =
              .ok (storeUpdate store code inv, ⟨s⟩) := by
            unfold resendInvite; rw [hfind]; simp [hexp', hacc']
          constructor
          · intro store' n hok
            rw [hres] at hok
            injection hok with hpair
            have h1 : storeUpdate store code inv = store' :=
              congrArg Prod.fst hpair
            have h2 : (⟨s⟩ : SlotNotification) = n :=
              congrArg Prod.snd hpair
            subst h1
            subst h2
            refine ⟨rfl, ?_, ?_⟩
            · exact findInvite_storeUpdate_of_found store code inv hfind
            · intro c t'
              unfold checkInviteStatus
              rw [findInvite_storeUpdate_of_found store code inv hfind c]
          · intro e he
            rw [hres] at he
            exact absurd he (by simp)

/-- Witness for C5: resending slot 1 of `demoStore`'s invite at time 0
succeeds and leaves the lookup of code 1 unchanged. -/
theorem resend_is_pure_witness :
    findInvite (storeUpdate demoStore 1 demoInvite) 1 = findInvite demoStore 1 :=
  (((resend_is_pure demoStore 1 .one 0).1 (storeUpdate demoStore 1 demoInvite)
    ⟨.one⟩ rfl).2.1) 1

end Kakani
